import Mathlib

/-!
# Verification of the hbot quiz session engine

Shallow embedding of the quiz session engine of the `Spot21/hbot` Telegram
bot: `services/quiz_service.py` (class `QuizService`) together with the
answer-handling branches of `handlers/student.py` (`handle_test_button`).

Python dynamic values that can be an int, a string, or a list (the shapes
taken by stored answers and by `correct_answer`) are modelled by the
inductive type `PyVal`; Python `==` across these shapes is structural
equality (an int never equals a string), which matches `DecidableEq` on
`PyVal`.  Python dicts keyed by user id / question id strings are modelled
as association lists with first-match lookup, in-place overwrite and key
deletion (`dictGet` / `dictSet` / `dictDel`).

Effects that live outside the engine are made explicit parameters:
the database row lookups performed at completion time (`Db`: whether the
user row exists, the user's previously granted achievement names, the
user's historical result count) and the random sample drawn by
`random.sample` at session start (the `selected` argument of `start_quiz`).
`start_time` / `time_spent` (wall-clock time) and the persisted rows
themselves are not modelled: no claim mentions them.  Python float
`round(x, 1)` is modelled as exact rational rounding (`round1`).
-/

set_option autoImplicit false

namespace HBot

/-- An int or a string: the only element shapes that ever occur inside a
stored answer list (a multiple selection is a list of ints, an accumulated
sequence a list of `str(option_index)` strings, and the decoded
`correct_answer` a list of ints or of digit strings).  Python `==` between
an int and a string is `False`, matching structural equality here. -/
inductive PyScalar where
  | int (n : Int)
  | str (s : String)
deriving DecidableEq, Repr

/-- A dynamically typed Python value as used for quiz answers: an int
(single choice), a string, or a list of scalars (multiple selection /
accumulated sequence / decoded `correct_answer`).  The program never nests
a list inside an answer list, so list elements are `PyScalar`. -/
inductive PyVal where
  | int (n : Int)
  | str (s : String)
  | list (l : List PyScalar)
deriving DecidableEq, Repr

/-- Python `==` between a dynamically typed value and a scalar (as in
`user_answer == question["correct_answer"][0]`): equal only when both are
ints or both are strings with the same content. -/
def pyEqScalar (v : PyVal) (c : PyScalar) : Bool :=
  match v, c with
  | .int a, .int b => decide (a = b)
  | .str a, .str b => decide (a = b)
  | _, _ => false

/-- First-match lookup in an association list: Python `d.get(k)` / `d[k]`. -/
def dictGet {κ α : Type} [DecidableEq κ] (m : List (κ × α)) (k : κ) : Option α :=
  match m with
  | [] => none
  | (k', v) :: rest => if k' = k then some v else dictGet rest k

/-- Overwrite-or-append update: Python `d[k] = v`. -/
def dictSet {κ α : Type} [DecidableEq κ] (m : List (κ × α)) (k : κ) (v : α) :
    List (κ × α) :=
  match m with
  | [] => [(k, v)]
  | (k', v') :: rest => if k' = k then (k, v) :: rest else (k', v') :: dictSet rest k v

/-- Key removal: Python `del d[k]`.  A dict's keys are unique, so dropping
every entry with the key is the same as dropping the one entry. -/
def dictDel {κ α : Type} [DecidableEq κ] (m : List (κ × α)) (k : κ) : List (κ × α) :=
  m.filter (fun p => decide (p.1 ≠ k))

/-- A question snapshot as built by `start_quiz` (`quiz_service.py` lines
62-73): id, prompt text, option labels, the JSON-decoded correct answer,
the type tag, and the explanation.  `media_url` is kept for completeness;
no claim depends on it. -/
structure Question where
  id : Nat
  text : String
  options : List String
  correct_answer : PyVal
  question_type : String
  explanation : String
  media_url : Option String
deriving DecidableEq

/-- The per-user session dict built by `start_quiz` (`quiz_data`).
`answers` is the Python dict keyed by `str(question_id)`.
`start_time` (wall clock) is not modelled. -/
structure QuizData where
  topic_id : Nat
  questions : List Question
  current_question : Nat
  answers : List (String × PyVal)
  is_completed : Bool
deriving DecidableEq

/-- `QuizService.active_quizzes`: the dict `{user_id: quiz_data}`. -/
abbrev Store := List (Nat × QuizData)

/-- The database facts consulted by `complete_quiz` / `check_achievements`:
whether the `User` row for the telegram id exists, the names of the user's
already granted achievements, and `len(user.results)`. -/
structure Db where
  userExists : Bool
  existingAchNames : List String
  resultsCount : Nat
deriving DecidableEq

/-- `QuizService.get_current_question` (lines 85-95). -/
def get_current_question (store : Store) (user_id : Nat) : Option Question :=
  match dictGet store user_id with
  | none => none
  | some quiz_data =>
    if h : quiz_data.current_question ≥ quiz_data.questions.length then none
    else some (quiz_data.questions.get ⟨quiz_data.current_question, by omega⟩)

/-- `QuizService.is_option_selected` (lines 175-180): membership of the
option index in the list stored under `str(question_id)` (absent key or a
missing session reads as the empty list). -/
def is_option_selected (store : Store) (user_id : Nat) (question_id : Nat)
    (option_index : Int) : Bool :=
  match dictGet store user_id with
  | none => false
  | some quiz_data =>
    match dictGet quiz_data.answers (toString question_id) with
    | some (.list l) => decide (PyScalar.int option_index ∈ l)
    | _ => false

/-- `QuizService.get_current_sequence` (lines 182-186). -/
def get_current_sequence (store : Store) (user_id : Nat) (question_id : Nat) : PyVal :=
  match dictGet store user_id with
  | none => .list []
  | some quiz_data => (dictGet quiz_data.answers (toString question_id)).getD (.list [])

/-- The `remaining_options` comprehension of
`QuizService.format_question_message` (line 141): option indices whose
string form does not occur in the current sequence. -/
def remaining_options (options : List String) (current_sequence : List PyScalar) :
    List Nat :=
  (List.range options.length).filter
    (fun i => decide (PyScalar.str (toString i) ∉ current_sequence))

/-- `question["correct_answer"][0]`: first element of a Python list
(`none` models the `IndexError` / `TypeError` cases, which validated
question data never reaches). -/
def pyIndex0 : PyVal → Option PyScalar
  | .list (x :: _) => some x
  | _ => none

/-- Python `set(xs) == set(ys)` on the elements of two lists. -/
def setEqList (xs ys : List PyScalar) : Bool :=
  xs.all (fun x => decide (x ∈ ys)) && ys.all (fun y => decide (y ∈ xs))

/-- Per-question correctness, from the scoring loop of
`QuizService.complete_quiz` (lines 253-262): `None` (skipped) is always
incorrect; otherwise dispatch on `question_type`.  The fall-through
`false` branches model shapes on which the Python code would raise, which
validated question data and the handler flow never produce. -/
def isCorrect (question : Question) (user_answer : Option PyVal) : Bool :=
  match user_answer with
  | none => false
  | some ua =>
    if question.question_type = "single" then
      match pyIndex0 question.correct_answer with
      | some c => pyEqScalar ua c
      | none => false
    else if question.question_type = "multiple" then
      match ua, question.correct_answer with
      | .list us, .list cs => setEqList us cs
      | _, _ => false
    else if question.question_type = "sequence" then
      decide (ua = question.correct_answer)
    else false

/-- One entry of `question_results` (lines 264-270). -/
structure QResult where
  question : String
  user_answer : Option PyVal
  correct_answer : PyVal
  is_correct : Bool
  explanation : String
deriving DecidableEq

/-- The `question_results` list built by the scoring loop. -/
def question_results (quiz_data : QuizData) : List QResult :=
  quiz_data.questions.map (fun q =>
    let ua := dictGet quiz_data.answers (toString q.id)
    { question := q.text
      user_answer := ua
      correct_answer := q.correct_answer
      is_correct := isCorrect q ua
      explanation := q.explanation })

/-- `correct_count`: how many loop iterations set `is_correct`. -/
def correct_count (quiz_data : QuizData) : Nat :=
  (question_results quiz_data).countP (fun r => r.is_correct)

/-- Round a rational to the nearest integer, ties to even: the rounding
Python's `round` performs (on the exact value; float representation noise
is not modelled). -/
def roundHalfEven (y : ℚ) : ℤ :=
  let den : ℤ := (y.den : ℤ)
  let fl : ℤ := Int.fdiv y.num den
  let frac2 : ℤ := 2 * (y.num - fl * den)
  if frac2 < den then fl
  else if den < frac2 then fl + 1
  else if fl % 2 = 0 then fl else fl + 1

/-- Python `round(x, 1)` on an exact rational. -/
def round1 (x : ℚ) : ℚ := (roundHalfEven (10 * x) : ℚ) / 10

/-- The percentage computation of line 276 (0 when there are no questions). -/
def percentage (correct total : Nat) : ℚ :=
  if total > 0 then round1 ((correct : ℚ) / (total : ℚ) * 100) else 0

/-- The payload returned by a successful `complete_quiz`. -/
structure QuizResult where
  correct_count : Nat
  total_questions : Nat
  percentage : ℚ
  question_results : List QResult
deriving DecidableEq

/-- Outcome of `complete_quiz`: "Нет активного теста", "Пользователь не
найден", or the success payload. -/
inductive CompleteResult where
  | noActive
  | userNotFound
  | ok (r : QuizResult)
deriving DecidableEq

/-- An achievement rule from the `achievements_to_check` list of
`check_achievements` (lines 327-335), with its predicate already evaluated
against the user's history. -/
structure AchRule where
  name : String
  description : String
  points : Nat
  condition : Bool
  badge_url : String
deriving DecidableEq

/-- The `achievements_to_check` list (lines 327-335). -/
def achievements_to_check (db : Db) (pct : ℚ) : List AchRule :=
  [ { name := "Первый тест", description := "Пройден первый тест!", points := 10,
      condition := true, badge_url := "badges/first_test.png" },
    { name := "Отличник", description := "Получите 100% в тесте", points := 50,
      condition := decide (pct = 100), badge_url := "badges/perfect_score.png" },
    { name := "Знаток истории", description := "Пройдите 10 тестов", points := 100,
      condition := decide (db.resultsCount ≥ 10), badge_url := "badges/history_expert.png" } ]

/-- `QuizService.check_achievements` (lines 313-356): returns the newly
granted achievements.  A rule fires only when its name is not among the
user's existing achievement names and its condition holds; a missing user
row yields the empty list. -/
def check_achievements (db : Db) (pct : ℚ) : List AchRule :=
  if db.userExists then
    (achievements_to_check db pct).filter
      (fun a => decide (a.name ∉ db.existingAchNames) && a.condition)
  else []

/-- `QuizService.complete_quiz` (lines 237-311): scores the session,
persists the aggregate (the external write itself is not modelled), and
deletes the session from `active_quizzes` — but only on the success path;
when the `User` row is missing the method returns early and the session
stays in the store. -/
def complete_quiz (db : Db) (store : Store) (user_id : Nat) :
    CompleteResult × Store :=
  match dictGet store user_id with
  | none => (.noActive, store)
  | some quiz_data =>
    let cc := correct_count quiz_data
    let total := quiz_data.questions.length
    if db.userExists then
      (.ok { correct_count := cc
             total_questions := total
             percentage := percentage cc total
             question_results := question_results quiz_data },
       dictDel store user_id)
    else
      (.userNotFound, store)

/-- Outcome of `submit_answer` / `skip_question`. -/
inductive SubmitRes where
  | noActive
  | outOfQuestions
  | inProgress
  | completed (r : CompleteResult)
deriving DecidableEq

/-- `QuizService.submit_answer` (lines 188-213).  Note that the
`question_id` argument is never consulted: the answer is stored under the
id of the question at `current_question` and the index always advances. -/
def submit_answer (db : Db) (store : Store) (user_id : Nat) (question_id : Nat)
    (answer : PyVal) : SubmitRes × Store :=
  match dictGet store user_id with
  | none => (.noActive, store)
  | some quiz_data =>
    if h : quiz_data.current_question ≥ quiz_data.questions.length then
      (.outOfQuestions, store)
    else
      let current := quiz_data.questions.get ⟨quiz_data.current_question, by omega⟩
      let qd1 : QuizData :=
        { quiz_data with
          answers := dictSet quiz_data.answers (toString current.id) answer
          current_question := quiz_data.current_question + 1 }
      if qd1.current_question ≥ qd1.questions.length then
        let qd2 : QuizData := { qd1 with is_completed := true }
        let store1 := dictSet store user_id qd2
        let out := complete_quiz db store1 user_id
        (.completed out.1, out.2)
      else
        (.inProgress, dictSet store user_id qd1)

/-- `QuizService.skip_question` (lines 215-235): advances without touching
`answers`. -/
def skip_question (db : Db) (store : Store) (user_id : Nat) :
    SubmitRes × Store :=
  match dictGet store user_id with
  | none => (.noActive, store)
  | some quiz_data =>
    if quiz_data.current_question ≥ quiz_data.questions.length then
      (.outOfQuestions, store)
    else
      let qd1 : QuizData :=
        { quiz_data with current_question := quiz_data.current_question + 1 }
      if qd1.current_question ≥ qd1.questions.length then
        let qd2 : QuizData := { qd1 with is_completed := true }
        let store1 := dictSet store user_id qd2
        let out := complete_quiz db store1 user_id
        (.completed out.1, out.2)
      else
        (.inProgress, dictSet store user_id qd1)

/-- Observation of a submit outcome: the `correct_count` of a successful
completion payload, if the submission completed the quiz.  (Projecting a
single field lets concrete runs be checked by `decide` without evaluating
the rational `percentage` field, whose arithmetic is `irreducible`.) -/
def completedCorrectCount : SubmitRes → Option Nat
  | .completed (.ok r) => some r.correct_count
  | _ => none

/-- Outcome of `start_quiz`. -/
inductive StartRes where
  | emptyTopic
  | ok
deriving DecidableEq

/-- `QuizService.start_quiz` (lines 42-83).  The question bank read and
the `random.sample(questions, min(question_count, len(questions)))` draw
are externalised: `bank` is the topic's question list and `selected` the
sampled snapshot list.  An empty bank is rejected; otherwise a fresh
session (index 0, empty answers, not completed) overwrites any prior
session for the user. -/
def start_quiz (store : Store) (user_id : Nat) (topic_id : Nat)
    (bank : List Question) (selected : List Question) : StartRes × Store :=
  if bank.isEmpty then (.emptyTopic, store)
  else
    let quiz_data : QuizData :=
      { topic_id := topic_id
        questions := selected
        current_question := 0
        answers := []
        is_completed := false }
    (.ok, dictSet store user_id quiz_data)

/-- The list-level core of the multiple-choice toggle of
`handle_test_button` (`student.py` lines 122-125): Python
`l.remove(option_index)` (first occurrence) when the index is selected,
`l.append(option_index)` otherwise. -/
def toggleList (l : List PyScalar) (option_index : Int) : List PyScalar :=
  if PyScalar.int option_index ∈ l then l.erase (.int option_index)
  else l ++ [.int option_index]

/-- The toggle applied to the stored answer value (`student.py` lines
120-127).  A non-list stored value would raise in Python and is returned
unchanged here (unreachable through the handler flow). -/
def pyToggle (v : PyVal) (option_index : Int) : PyVal :=
  match v with
  | .list l => .list (toggleList l option_index)
  | other => other

/-- Python `l.append(x)` on an accumulated sequence (`student.py` line
143). -/
def pyAppend (v : PyVal) (x : PyScalar) : PyVal :=
  match v with
  | .list l => .list (l ++ [x])
  | other => other

/-- The `quiz_answer_…` branch of `handle_test_button` (`student.py` lines
95-130): allowed only when the callback's question id matches the current
question's id; dispatches on the current question's type (single submits
immediately, multiple toggles the selection).  Returns the submit result,
when one was produced, and the new store. -/
def handle_quiz_answer (db : Db) (store : Store) (user_id : Nat)
    (question_id : Nat) (option_index : Nat) : Option SubmitRes × Store :=
  match dictGet store user_id, get_current_question store user_id with
  | some quiz_data, some current =>
    if current.id = question_id then
      if current.question_type = "single" then
        let out := submit_answer db store user_id question_id (.int option_index)
        (some out.1, out.2)
      else if current.question_type = "multiple" then
        let selected :=
          (dictGet quiz_data.answers (toString question_id)).getD (.list [])
        let qd1 : QuizData :=
          { quiz_data with
            answers := dictSet quiz_data.answers (toString question_id)
              (pyToggle selected option_index) }
        (none, dictSet store user_id qd1)
      else (none, store)
    else (none, store)
  | _, _ => (none, store)

/-- The `quiz_seq_…` branch of `handle_test_button` (`student.py` lines
132-147): when the callback's question id matches the current question,
`str(option_index)` is appended to the accumulated sequence — with no
check that the index is absent from it. -/
def handle_quiz_seq (store : Store) (user_id : Nat) (question_id : Nat)
    (option_index : Nat) : Store :=
  match dictGet store user_id, get_current_question store user_id with
  | some quiz_data, some current =>
    if current.id = question_id then
      let sequence :=
        (dictGet quiz_data.answers (toString question_id)).getD (.list [])
      let qd1 : QuizData :=
        { quiz_data with
          answers := dictSet quiz_data.answers (toString question_id)
            (pyAppend sequence (.str (toString option_index))) }
      dictSet store user_id qd1
    else store
  | _, _ => store

/-- The `quiz_reset_…` branch of `handle_test_button` (`student.py` lines
149-161): clears the accumulated sequence for the current question. -/
def handle_quiz_reset (store : Store) (user_id : Nat) (question_id : Nat) :
    Store :=
  match dictGet store user_id, get_current_question store user_id with
  | some quiz_data, some current =>
    if current.id = question_id then
      let qd1 : QuizData :=
        { quiz_data with
          answers := dictSet quiz_data.answers (toString question_id) (.list []) }
      dictSet store user_id qd1
    else store
  | _, _ => store

/-- The `quiz_confirm_…` branch of `handle_test_button` (`student.py`
lines 163-184): when the callback's question id matches the current
question, the accumulated value (default `[]`) is submitted as the final
answer — with no check on its length. -/
def handle_quiz_confirm (db : Db) (store : Store) (user_id : Nat)
    (question_id : Nat) : Option SubmitRes × Store :=
  match dictGet store user_id, get_current_question store user_id with
  | some quiz_data, some current =>
    if current.id = question_id then
      let answer :=
        (dictGet quiz_data.answers (toString question_id)).getD (.list [])
      let out := submit_answer db store user_id question_id answer
      (some out.1, out.2)
    else (none, store)
  | _, _ => (none, store)

/-- Iterated `quiz_skip` presses: the store after `n` calls to
`skip_question` for the same user. -/
def iterSkip (db : Db) (user_id : Nat) : Nat → Store → Store
  | 0, store => store
  | n + 1, store => iterSkip db user_id n (skip_question db store user_id).2

/-- The index invariant of the spec: every stored session's
`current_question` is between 0 and the number of its questions. -/
abbrev sessionInvariant (store : Store) : Prop :=
  ∀ p ∈ store, (p : Nat × QuizData).2.current_question ≤ p.2.questions.length

/-! ## Sample data for concrete evaluations -/

/-- A database view with an existing user, no achievements, no results. -/
def dbTest : Db := { userExists := true, existingAchNames := [], resultsCount := 0 }

/-- A single-choice question whose correct option is index 2. -/
def qSingle : Question :=
  { id := 1, text := "s", options := ["a", "b", "c"],
    correct_answer := .list [.int 2], question_type := "single",
    explanation := "", media_url := none }

/-- A multiple-choice question whose correct set is {0, 2}. -/
def qMulti : Question :=
  { id := 2, text := "m", options := ["a", "b", "c"],
    correct_answer := .list [.int 0, .int 2], question_type := "multiple",
    explanation := "", media_url := none }

/-- A sequence question whose correct ordering is [2, 0, 1] (stored, as the
admin flow stores it, as the strings "2", "0", "1"). -/
def qSeq : Question :=
  { id := 3, text := "q", options := ["a", "b", "c"],
    correct_answer := .list [.str "2", .str "0", .str "1"],
    question_type := "sequence", explanation := "", media_url := none }

/-- A fresh two-question session for user 1 (single then multiple). -/
def quizTwo : QuizData :=
  { topic_id := 5, questions := [qSingle, qMulti], current_question := 0,
    answers := [], is_completed := false }

/-- A store holding only user 1's fresh two-question session. -/
def storeTwo : Store := [(1, quizTwo)]

/-- A two-question session for user 1 whose current question is the
sequence question, with the partial sequence ["0"] accumulated. -/
def quizSeqPartial : QuizData :=
  { topic_id := 5, questions := [qSeq, qSingle], current_question := 0,
    answers := [("3", .list [.str "0"])], is_completed := false }

/-- A store holding only user 1's partial-sequence session. -/
def storeSeqPartial : Store := [(1, quizSeqPartial)]

/-- A one-question multiple-choice session for user 1 with {0} selected. -/
def quizMulti : QuizData :=
  { topic_id := 5, questions := [qMulti], current_question := 0,
    answers := [("2", .list [.int 0])], is_completed := false }

/-- A store holding only user 1's multiple-choice session. -/
def storeMulti : Store := [(1, quizMulti)]

/-- A fresh three-question session for user 1 (for the skip-all scenario). -/
def quizThree : QuizData :=
  { topic_id := 5, questions := [qSingle, qMulti, qSeq], current_question := 0,
    answers := [], is_completed := false }

/-- A store holding only user 1's fresh three-question session. -/
def storeThree : Store := [(1, quizThree)]

/-! ## Association-list lemmas -/

theorem dictGet_set_self {κ α : Type} [DecidableEq κ] (m : List (κ × α)) (k : κ)
    (v : α) : dictGet (dictSet m k v) k = some v := by
  induction m with
  | nil => simp [dictGet, dictSet]
  | cons p rest ih =>
    obtain ⟨k', v'⟩ := p
    by_cases h : k' = k <;> simp [dictGet, dictSet, h, ih]

theorem dictGet_set_ne {κ α : Type} [DecidableEq κ] (m : List (κ × α))
    (k k' : κ) (v : α) (h : k' ≠ k) :
    dictGet (dictSet m k v) k' = dictGet m k' := by
  have hk : k ≠ k' := Ne.symm h
  induction m with
  | nil => simp [dictGet, dictSet, hk]
  | cons p rest ih =>
    obtain ⟨k₀, v₀⟩ := p
    by_cases h0 : k₀ = k
    · subst h0
      simp [dictGet, dictSet, hk]
    · simp [dictGet, dictSet, h0, ih]

theorem dictGet_del_self {κ α : Type} [DecidableEq κ] (m : List (κ × α)) (k : κ) :
    dictGet (dictDel m k) k = none := by
  induction m with
  | nil => simp [dictGet, dictDel]
  | cons p rest ih =>
    obtain ⟨k', v'⟩ := p
    by_cases h : k' = k <;> simp [dictGet, dictDel, h] at ih ⊢ <;> simpa [dictDel] using ih

theorem dictGet_some_mem {κ α : Type} [DecidableEq κ] {m : List (κ × α)} {k : κ}
    {v : α} (h : dictGet m k = some v) : (k, v) ∈ m := by
  induction m with
  | nil => simp [dictGet] at h
  | cons p rest ih =>
    obtain ⟨k', v'⟩ := p
    by_cases h0 : k' = k
    · subst h0
      simp [dictGet] at h
      simp [h]
    · simp [dictGet, h0] at h
      exact List.mem_cons_of_mem _ (ih h)

theorem mem_dictSet {κ α : Type} [DecidableEq κ] {m : List (κ × α)} {k : κ}
    {v : α} {p : κ × α} (h : p ∈ dictSet m k v) : p = (k, v) ∨ p ∈ m := by
  induction m with
  | nil => simpa [dictSet] using h
  | cons q rest ih =>
    obtain ⟨k', v'⟩ := q
    by_cases h0 : k' = k
    · simp [dictSet, h0] at h
      rcases h with h | h
      · exact Or.inl h
      · exact Or.inr (List.mem_cons_of_mem _ h)
    · simp [dictSet, h0] at h
      rcases h with h | h
      · exact Or.inr (by simp [h])
      · rcases ih h with h1 | h1
        · exact Or.inl h1
        · exact Or.inr (List.mem_cons_of_mem _ h1)

theorem mem_dictDel {κ α : Type} [DecidableEq κ] {m : List (κ × α)} {k : κ}
    {p : κ × α} (h : p ∈ dictDel m k) : p ∈ m :=
  List.mem_of_mem_filter h

/-! ## Facts about the scoring of an empty answers map -/

theorem dictGet_nil {κ α : Type} [DecidableEq κ] (k : κ) :
    dictGet ([] : List (κ × α)) k = none := rfl

theorem correct_count_of_no_answers {qd : QuizData} (h : qd.answers = []) :
    correct_count qd = 0 := by
  unfold correct_count question_results
  rw [h]
  induction qd.questions with
  | nil => simp
  | cons q rest ih => simpa [dictGet, isCorrect] using ih

/-- Unfolding of `get_current_question` when the session is present. -/
theorem get_current_question_some {store : Store} {u : Nat} {qd : QuizData}
    (hqd : dictGet store u = some qd) :
    get_current_question store u =
      if h : qd.current_question ≥ qd.questions.length then none
      else some (qd.questions.get ⟨qd.current_question, by omega⟩) := by
  unfold get_current_question
  rw [hqd]

/-- Unfolding of `submit_answer` when the session is present. -/
theorem submit_answer_some (db : Db) {store : Store} {u : Nat} (q : Nat)
    (a : PyVal) {qd : QuizData} (hqd : dictGet store u = some qd) :
    submit_answer db store u q a =
      if h : qd.current_question ≥ qd.questions.length then (.outOfQuestions, store)
      else
        let current := qd.questions.get ⟨qd.current_question, by omega⟩
        let qd1 : QuizData :=
          { qd with
            answers := dictSet qd.answers (toString current.id) a
            current_question := qd.current_question + 1 }
        if qd1.current_question ≥ qd1.questions.length then
          let qd2 : QuizData := { qd1 with is_completed := true }
          let out := complete_quiz db (dictSet store u qd2) u
          (.completed out.1, out.2)
        else (.inProgress, dictSet store u qd1) := by
  unfold submit_answer
  rw [hqd]

/-- Unfolding of `skip_question` when the session is present. -/
theorem skip_question_some (db : Db) {store : Store} {u : Nat}
    {qd : QuizData} (hqd : dictGet store u = some qd) :
    skip_question db store u =
      if qd.current_question ≥ qd.questions.length then (.outOfQuestions, store)
      else
        let qd1 : QuizData := { qd with current_question := qd.current_question + 1 }
        if qd1.current_question ≥ qd1.questions.length then
          let qd2 : QuizData := { qd1 with is_completed := true }
          let out := complete_quiz db (dictSet store u qd2) u
          (.completed out.1, out.2)
        else (.inProgress, dictSet store u qd1) := by
  unfold skip_question
  rw [hqd]

/-- The invariant survives overwriting one user's session with a session
that satisfies the bound. -/
theorem sessionInvariant_dictSet {store : Store} {u : Nat} {qd : QuizData}
    (h : sessionInvariant store)
    (hq : qd.current_question ≤ qd.questions.length) :
    sessionInvariant (dictSet store u qd) := by
  intro p hp
  rcases mem_dictSet hp with h1 | h1
  · rw [h1]
    exact hq
  · exact h p h1

/-- The invariant survives removing a session. -/
theorem sessionInvariant_dictDel {store : Store} {u : Nat}
    (h : sessionInvariant store) : sessionInvariant (dictDel store u) :=
  fun p hp => h p (mem_dictDel hp)

/-- `complete_quiz` preserves the invariant: it either leaves the store
alone or deletes a session. -/
theorem sessionInvariant_complete (db : Db) (store : Store) (u : Nat)
    (h : sessionInvariant store) :
    sessionInvariant (complete_quiz db store u).2 := by
  unfold complete_quiz
  cases hg : dictGet store u with
  | none => exact h
  | some qd =>
    by_cases hu : db.userExists = true
    · simp only [hu, if_true]
      exact sessionInvariant_dictDel h
    · simp only [hu, Bool.false_eq_true, if_false]
      exact h

/-- `is_option_selected` reads exactly the list stored for the question
(defaulting to the empty list). -/
theorem is_option_selected_eq {store : Store} {u q : Nat} {qd : QuizData}
    {l : List PyScalar} (hqd : dictGet store u = some qd)
    (hl : (dictGet qd.answers (toString q)).getD (.list []) = .list l) :
    ∀ j : Int, is_option_selected store u q j = decide (PyScalar.int j ∈ l) := by
  intro j
  unfold is_option_selected
  rw [hqd]
  cases hg : dictGet qd.answers (toString q) with
  | none =>
    rw [hg] at hl
    simp only [Option.getD_none, PyVal.list.injEq] at hl
    simp [hg, ← hl]
  | some v =>
    rw [hg] at hl
    simp only [Option.getD_some] at hl
    subst hl
    simp [hg]

/-- Membership after one toggle: the toggled index flips, all others are
unchanged (removal needs the no-duplicate hypothesis). -/
theorem toggleList_mem {l : List PyScalar} {i : Int} (hnd : l.Nodup) (j : Int) :
    (PyScalar.int j ∈ toggleList l i)
      ↔ (if j = i then PyScalar.int i ∉ l else PyScalar.int j ∈ l) := by
  unfold toggleList
  by_cases hj : j = i
  · subst hj
    by_cases hmem : PyScalar.int j ∈ l
    · simp [hmem, List.Nodup.mem_erase_iff hnd]
    · simp [hmem]
  · have hne : PyScalar.int j ≠ PyScalar.int i := by simp [hj]
    by_cases hmem : PyScalar.int i ∈ l
    · simp [hmem, hj, List.mem_erase_of_ne hne]
    · simp [hmem, hj, hne]

/-- Toggling preserves the no-duplicate property. -/
theorem toggleList_nodup {l : List PyScalar} {i : Int} (hnd : l.Nodup) :
    (toggleList l i).Nodup := by
  unfold toggleList
  by_cases hmem : PyScalar.int i ∈ l
  · simp only [hmem, if_true]
    exact hnd.erase _
  · simp only [hmem, if_false]
    simp [List.nodup_append, hnd, hmem]

/-- Toggling the same index twice leaves membership unchanged. -/
theorem toggleList_toggleList_mem {l : List PyScalar} {i : Int}
    (hnd : l.Nodup) (j : Int) :
    (PyScalar.int j ∈ toggleList (toggleList l i) i) ↔ PyScalar.int j ∈ l := by
  by_cases hj : j = i
  · subst hj
    rw [toggleList_mem (toggleList_nodup hnd) j, if_pos rfl,
      toggleList_mem hnd j, if_pos rfl]
    exact not_not
  · rw [toggleList_mem (toggleList_nodup hnd) j, if_neg hj,
      toggleList_mem hnd j, if_neg hj]

/-- Skipping `k` times, while at least one question remains beyond them,
keeps the session and only advances `current_question` by `k`. -/
theorem iterSkip_steps (db : Db) (u : Nat) : ∀ (k : Nat) (store : Store)
    (qd : QuizData), dictGet store u = some qd →
    qd.current_question + k < qd.questions.length →
    dictGet (iterSkip db u k store) u =
      some { qd with current_question := qd.current_question + k } := by
  intro k
  induction k with
  | zero =>
    intro store qd hqd _
    simpa using hqd
  | succ k ih =>
    intro store qd hqd hlt
    have hskip : (skip_question db store u).2 =
        dictSet store u { qd with current_question := qd.current_question + 1 } := by
      rw [skip_question_some db hqd, if_neg (by omega)]
      dsimp only
      rw [if_neg (by omega)]
    show dictGet (iterSkip db u k (skip_question db store u).2) u = _
    rw [hskip]
    have hrec := ih (dictSet store u
        { qd with current_question := qd.current_question + 1 })
      { qd with current_question := qd.current_question + 1 }
      (dictGet_set_self _ _ _) (by dsimp only; omega)
    rw [hrec]
    have harith : qd.current_question + 1 + k = qd.current_question + (k + 1) := by
      omega
    dsimp only
    rw [harith]

/-! ## Claim theorems -/

/-- C2: scoring a sequence-type question returns correct if and only if the
submitted ordered list equals the question's correct ordered list
element-for-element. -/
theorem C2_sequence_scoring (q : Question) (ua : PyVal)
    (h : q.question_type = "sequence") :
    isCorrect q (some ua) = true ↔ ua = q.correct_answer := by
  unfold isCorrect
  simp [h]

/-- C2 witness: the sequence [2,0,1] (accumulated, as the handler stores
it, as the strings "2","0","1") confirmed against correct answer [2,0,1]
is scored correct, and a transposition is scored incorrect. -/
theorem C2_sequence_scoring_witness :
    qSeq.question_type = "sequence"
    ∧ isCorrect qSeq (some (.list [.str "2", .str "0", .str "1"])) = true
    ∧ isCorrect qSeq (some (.list [.str "0", .str "2", .str "1"])) = false :=
  ⟨rfl, (C2_sequence_scoring qSeq (.list [.str "2", .str "0", .str "1"]) rfl).mpr (by decide),
    by decide⟩

/-- C5: skip records no answer (the answers map is unchanged), an absent
answer is scored incorrect, and skipping every question of a fresh session
completes it with correctCount = 0. -/
theorem C5_skip_records_nothing :
    (∀ q : Question, isCorrect q none = false)
    ∧ (∀ (db : Db) (store : Store) (u : Nat) (qd : QuizData),
        dictGet store u = some qd →
        ∀ qd', dictGet (skip_question db store u).2 u = some qd' →
          qd'.answers = qd.answers)
    ∧ (∀ (db : Db) (store : Store) (u : Nat) (qd : QuizData),
        dictGet store u = some qd → db.userExists = true → qd.answers = [] →
        qd.current_question = 0 → 0 < qd.questions.length →
        ∃ r, (skip_question db (iterSkip db u (qd.questions.length - 1) store) u).1
            = .completed (.ok r) ∧ r.correct_count = 0) := by
  refine ⟨fun q => rfl, ?_, ?_⟩
  · intro db store u qd hqd qd' hqd'
    rw [skip_question_some db hqd] at hqd'
    by_cases hge : qd.current_question ≥ qd.questions.length
    · rw [if_pos hge] at hqd'
      dsimp only at hqd'
      rw [hqd] at hqd'
      injection hqd' with h
      rw [← h]
    · rw [if_neg hge] at hqd'
      dsimp only at hqd'
      by_cases hc : qd.current_question + 1 ≥ qd.questions.length
      · rw [if_pos hc] at hqd'
        unfold complete_quiz at hqd'
        rw [dictGet_set_self] at hqd'
        by_cases hu : db.userExists
        · simp only [hu, if_true] at hqd'
          rw [dictGet_del_self] at hqd'
          exact Option.noConfusion hqd'
        · simp only [hu, Bool.false_eq_true, if_false] at hqd'
          rw [dictGet_set_self] at hqd'
          injection hqd' with h
          rw [← h]
      · rw [if_neg hc] at hqd'
        rw [dictGet_set_self] at hqd'
        injection hqd' with h
        rw [← h]
  · intro db store u qd hqd hu hans hcur hlen
    have hstep := iterSkip_steps db u (qd.questions.length - 1) store qd hqd
      (by omega)
    rw [skip_question_some db hstep, if_neg (by dsimp only; omega)]
    dsimp only
    rw [if_pos (by omega)]
    unfold complete_quiz
    rw [dictGet_set_self]
    simp only [hu, if_true]
    refine ⟨_, rfl, ?_⟩
    exact correct_count_of_no_answers hans

/-- C5 witness: skipping all three questions of the fresh three-question
session completes it with correctCount = 0. -/
theorem C5_skip_records_nothing_witness :
    ∃ r, (skip_question dbTest
        (iterSkip dbTest 1 (quizThree.questions.length - 1) storeThree) 1).1
      = .completed (.ok r) ∧ r.correct_count = 0 :=
  C5_skip_records_nothing.2.2 dbTest storeThree 1 quizThree (by decide) (by decide)
    (by decide) (by decide) (by decide)

/-- C6: scoring a multiple-type question returns correct if and only if the
set of submitted option indices equals the set of correct indices. -/
theorem C6_multiple_scoring (q : Question) (us cs : List PyScalar)
    (h : q.question_type = "multiple") (hc : q.correct_answer = .list cs) :
    isCorrect q (some (.list us)) = true ↔ ∀ x : PyScalar, x ∈ us ↔ x ∈ cs := by
  unfold isCorrect
  simp [h, hc, setEqList, List.all_eq_true]
  constructor
  · rintro ⟨h1, h2⟩ x
    exact ⟨fun hx => h1 x hx, fun hx => h2 x hx⟩
  · intro hh
    exact ⟨fun x hx => (hh x).1 hx, fun x hx => (hh x).2 hx⟩

/-- C6 witness: {0,2} against correct {0,2} is correct; {0} and {0,1,2}
against the same correct set are incorrect. -/
theorem C6_multiple_scoring_witness :
    isCorrect qMulti (some (.list [.int 0, .int 2])) = true
    ∧ isCorrect qMulti (some (.list [.int 0])) = false
    ∧ isCorrect qMulti (some (.list [.int 0, .int 1, .int 2])) = false :=
  ⟨(C6_multiple_scoring qMulti [.int 0, .int 2] [.int 0, .int 2] rfl rfl).mpr
      (fun x => Iff.rfl),
    by decide, by decide⟩

/-- C7: a session that completes successfully (session present, user row
found) is removed from the store, and afterwards `get_current_question`
returns absent and `submit_answer` fails with the no-active-session
error. -/
theorem C7_completion_teardown (db : Db) (store : Store) (u : Nat)
    (qd : QuizData) (hs : dictGet store u = some qd)
    (hu : db.userExists = true) :
    (∃ r, (complete_quiz db store u).1 = .ok r)
    ∧ dictGet (complete_quiz db store u).2 u = none
    ∧ get_current_question (complete_quiz db store u).2 u = none
    ∧ ∀ (q : Nat) (a : PyVal),
        (submit_answer db (complete_quiz db store u).2 u q a).1 = .noActive := by
  have h2 : (complete_quiz db store u).2 = dictDel store u := by
    unfold complete_quiz
    rw [hs]
    simp [hu]
  refine ⟨?_, ?_, ?_, ?_⟩
  · refine ⟨{ correct_count := correct_count qd,
              total_questions := qd.questions.length,
              percentage := percentage (correct_count qd) qd.questions.length,
              question_results := question_results qd }, ?_⟩
    unfold complete_quiz
    rw [hs]
    simp [hu]
  · rw [h2]
    exact dictGet_del_self store u
  · rw [h2]
    unfold get_current_question
    rw [dictGet_del_self]
  · intro q a
    rw [h2]
    unfold submit_answer
    rw [dictGet_del_self]

/-- C7 witness: completing user 1's session in the two-question store
removes it, and the follow-up lookup and submit fail. -/
theorem C7_completion_teardown_witness :
    dictGet (complete_quiz dbTest storeTwo 1).2 1 = none
    ∧ get_current_question (complete_quiz dbTest storeTwo 1).2 1 = none
    ∧ (submit_answer dbTest (complete_quiz dbTest storeTwo 1).2 1 5 (.int 0)).1
        = .noActive :=
  ⟨(C7_completion_teardown dbTest storeTwo 1 quizTwo (by decide) (by decide)).2.1,
    (C7_completion_teardown dbTest storeTwo 1 quizTwo (by decide) (by decide)).2.2.1,
    (C7_completion_teardown dbTest storeTwo 1 quizTwo (by decide) (by decide)).2.2.2 5 (.int 0)⟩

/-- C8: a rule whose name is among the user's previously granted
achievement names never fires again, and one evaluation never grants two
achievements with the same name. -/
theorem C8_achievement_at_most_once (db : Db) (pct : ℚ) (name : String)
    (h : name ∈ db.existingAchNames) :
    name ∉ (check_achievements db pct).map (fun a => a.name)
    ∧ ((check_achievements db pct).map (fun a => a.name)).Nodup := by
  constructor
  · intro hmem
    unfold check_achievements at hmem
    split at hmem
    · simp only [List.mem_map] at hmem
      obtain ⟨a, ha, hname⟩ := hmem
      have hfil := List.of_mem_filter ha
      simp only [Bool.and_eq_true, decide_eq_true_eq] at hfil
      exact hfil.1 (hname ▸ h)
    · simp at hmem
  · unfold check_achievements
    split
    · have hsub := (List.filter_sublist (l := achievements_to_check db pct)
        (p := fun a => decide (a.name ∉ db.existingAchNames) && a.condition)).map
        (fun a => a.name)
      refine hsub.nodup ?_
      simp [achievements_to_check]
    · simp

/-- C1 counterexample: `submit_answer` itself never consults its
`question_id` argument.  In the fresh two-question store the current
question has id 1, yet `submit_answer` with question id 99 is not
rejected: it records the answer under the current question's id and
advances `current_question`. -/
theorem C1_counterexample :
    get_current_question storeTwo 1 = some qSingle
    ∧ qSingle.id ≠ 99
    ∧ (submit_answer dbTest storeTwo 1 99 (.int 0)).1 = .inProgress
    ∧ dictGet (submit_answer dbTest storeTwo 1 99 (.int 0)).2 1 =
        some { quizTwo with answers := [("1", .int 0)], current_question := 1 } := by
  decide

/-- C1 amended: the stale-question check lives in the button handler, not
in `submit_answer`: processing a `quiz_answer_…` or `quiz_confirm_…`
callback whose question id differs from the current question's id leaves
the store (hence the session's answers, current index and completed flag)
unchanged and produces no submit result. -/
theorem C1_handler_rejects_stale (db : Db) (store : Store) (u q i : Nat)
    (cur : Question) (hcur : get_current_question store u = some cur)
    (hne : cur.id ≠ q) :
    handle_quiz_answer db store u q i = (none, store)
    ∧ handle_quiz_confirm db store u q = (none, store) := by
  obtain ⟨qd, hqd⟩ : ∃ qd, dictGet store u = some qd := by
    unfold get_current_question at hcur
    cases h : dictGet store u with
    | none => rw [h] at hcur; simp at hcur
    | some qd => exact ⟨qd, rfl⟩
  constructor
  · unfold handle_quiz_answer
    rw [hqd, hcur]
    simp [hne]
  · unfold handle_quiz_confirm
    rw [hqd, hcur]
    simp [hne]

/-- C1 witness: a stale button press for question id 99 while question 1
is current changes nothing. -/
theorem C1_handler_rejects_stale_witness :
    handle_quiz_answer dbTest storeTwo 1 99 0 = (none, storeTwo)
    ∧ handle_quiz_confirm dbTest storeTwo 1 99 = (none, storeTwo) :=
  C1_handler_rejects_stale dbTest storeTwo 1 99 0 qSingle (by decide) (by decide)

/-- C3 counterexample: the confirm handler performs no length check.  The
current sequence question has 3 options, only ["0"] is accumulated, yet
the confirm callback is accepted: the one-element list is submitted as the
final answer and the session advances. -/
theorem C3_counterexample :
    qSeq.options.length = 3
    ∧ get_current_sequence storeSeqPartial 1 3 = .list [.str "0"]
    ∧ (handle_quiz_confirm dbTest storeSeqPartial 1 3).1 = some .inProgress
    ∧ dictGet (handle_quiz_confirm dbTest storeSeqPartial 1 3).2 1 =
        some { quizSeqPartial with current_question := 1 } := by
  decide

/-- C3 amended: for an in-progress session whose current question matches
the confirm callback's question id, the accumulated list is submitted as
the final answer regardless of its length, and the submission succeeds
(it is never rejected as no-session or out-of-questions). -/
theorem C3_confirm_accepts_any_length (db : Db) (store : Store) (u q : Nat)
    (qd : QuizData) (cur : Question) (hqd : dictGet store u = some qd)
    (hcur : get_current_question store u = some cur) (hid : cur.id = q) :
    handle_quiz_confirm db store u q =
      (some (submit_answer db store u q
          ((dictGet qd.answers (toString q)).getD (.list []))).1,
        (submit_answer db store u q
          ((dictGet qd.answers (toString q)).getD (.list []))).2)
    ∧ (submit_answer db store u q
        ((dictGet qd.answers (toString q)).getD (.list []))).1 ≠ .noActive
    ∧ (submit_answer db store u q
        ((dictGet qd.answers (toString q)).getD (.list []))).1 ≠ .outOfQuestions := by
  have hlt : qd.current_question < qd.questions.length := by
    rw [get_current_question_some hqd] at hcur
    by_contra hge
    rw [dif_pos (by omega)] at hcur
    exact Option.noConfusion hcur
  refine ⟨?_, ?_, ?_⟩
  · unfold handle_quiz_confirm
    rw [hqd, hcur]
    simp [hid]
  · rw [submit_answer_some db q _ hqd, dif_neg (by omega)]
    dsimp only
    split <;> simp
  · rw [submit_answer_some db q _ hqd, dif_neg (by omega)]
    dsimp only
    split <;> simp

/-- C3 witness: confirming the length-1 sequence ["0"] on the 3-option
sequence question is accepted and submitted. -/
theorem C3_confirm_accepts_any_length_witness :
    handle_quiz_confirm dbTest storeSeqPartial 1 3 =
      (some (submit_answer dbTest storeSeqPartial 1 3
          ((dictGet quizSeqPartial.answers (toString 3)).getD (.list []))).1,
        (submit_answer dbTest storeSeqPartial 1 3
          ((dictGet quizSeqPartial.answers (toString 3)).getD (.list []))).2)
    ∧ (submit_answer dbTest storeSeqPartial 1 3
        ((dictGet quizSeqPartial.answers (toString 3)).getD (.list []))).1 ≠ .noActive
    ∧ (submit_answer dbTest storeSeqPartial 1 3
        ((dictGet quizSeqPartial.answers (toString 3)).getD (.list []))).1
        ≠ .outOfQuestions :=
  C3_confirm_accepts_any_length dbTest storeSeqPartial 1 3 quizSeqPartial qSeq
    (by decide) (by decide) (by decide)

/-- C4 counterexample: the sequence-append handler does not check whether
the option index is already in the accumulated list.  With ["0"]
accumulated, a (replayed) press of option 0 produces ["0", "0"]: a
repeated index. -/
theorem C4_counterexample :
    get_current_sequence storeSeqPartial 1 3 = .list [.str "0"]
    ∧ handle_quiz_seq storeSeqPartial 1 3 0 =
        [(1, { quizSeqPartial with
                answers := [("3", .list [.str "0", .str "0"])] })] := by
  decide

/-- C4 amended: the keyboard built for a sequence question only offers
option indices whose string form is absent from the accumulated list, but
the append handler itself appends unconditionally (new list = old list ++
[str(option_index)]), so only a replayed callback can introduce a
repeat. -/
theorem C4_append_unconditional (store : Store) (u q i : Nat)
    (qd : QuizData) (cur : Question) (l : List PyScalar)
    (hqd : dictGet store u = some qd)
    (hcur : get_current_question store u = some cur) (hid : cur.id = q)
    (hl : (dictGet qd.answers (toString q)).getD (.list []) = .list l) :
    handle_quiz_seq store u q i =
      dictSet store u
        { qd with
          answers := dictSet qd.answers (toString q)
              (.list (l ++ [.str (toString i)])) }
    ∧ ∀ (opts : List String) (seq : List PyScalar) (j : Nat),
        j ∈ remaining_options opts seq
          ↔ j < opts.length ∧ PyScalar.str (toString j) ∉ seq := by
  constructor
  · unfold handle_quiz_seq
    rw [hqd, hcur]
    simp [hid, hl, pyAppend]
  · intro opts seq j
    unfold remaining_options
    simp [List.mem_filter, List.mem_range]

/-- C4 witness: appending option 0 to the accumulated ["0"] stores
["0", "0"]; and option 0 is not among the keyboard's remaining options
while option 1 is. -/
theorem C4_append_unconditional_witness :
    handle_quiz_seq storeSeqPartial 1 3 0 =
      dictSet storeSeqPartial 1
        { quizSeqPartial with
          answers := dictSet quizSeqPartial.answers (toString 3)
            (.list ([.str "0"] ++ [.str (toString 0)])) } :=
  (C4_append_unconditional storeSeqPartial 1 3 0 quizSeqPartial qSeq [.str "0"]
    (by decide) (by decide) (by decide) (by decide)).1

/-- C9: the index invariant 0 <= current_index <= len(questions) is
preserved by start, submit, skip and complete; start sets the index to 0;
submit and skip advance it by exactly 1 while it is below the question
count. -/
theorem C9_index_invariant (db : Db) (store : Store) (u topic q : Nat)
    (a : PyVal) (bank selected : List Question)
    (hInv : sessionInvariant store) :
    sessionInvariant (start_quiz store u topic bank selected).2
    ∧ ((start_quiz store u topic bank selected).1 = .ok →
        dictGet (start_quiz store u topic bank selected).2 u =
          some { topic_id := topic, questions := selected,
                 current_question := 0, answers := [], is_completed := false })
    ∧ sessionInvariant (submit_answer db store u q a).2
    ∧ (∀ qd, dictGet store u = some qd →
        qd.current_question < qd.questions.length →
        ∀ qd', dictGet (submit_answer db store u q a).2 u = some qd' →
          qd'.current_question = qd.current_question + 1)
    ∧ sessionInvariant (skip_question db store u).2
    ∧ (∀ qd, dictGet store u = some qd →
        qd.current_question < qd.questions.length →
        ∀ qd', dictGet (skip_question db store u).2 u = some qd' →
          qd'.current_question = qd.current_question + 1)
    ∧ sessionInvariant (complete_quiz db store u).2 := by
  refine ⟨?_, ?_, ?_, ?_, ?_, ?_, ?_⟩
  · unfold start_quiz
    split
    · exact hInv
    · exact sessionInvariant_dictSet hInv (Nat.zero_le _)
  · unfold start_quiz
    split
    · intro hok
      exact StartRes.noConfusion hok
    · intro _
      exact dictGet_set_self _ _ _
  · cases hqd : dictGet store u with
    | none =>
      unfold submit_answer
      rw [hqd]
      exact hInv
    | some qd =>
      rw [submit_answer_some db q a hqd]
      split
      · exact hInv
      · dsimp only
        split
        · exact sessionInvariant_complete db _ u
            (sessionInvariant_dictSet hInv (by dsimp only; omega))
        · exact sessionInvariant_dictSet hInv (by dsimp only; omega)
  · intro qd hqd hlt qd' hqd'
    rw [submit_answer_some db q a hqd, dif_neg (by omega)] at hqd'
    dsimp only at hqd'
    by_cases hc : qd.current_question + 1 ≥ qd.questions.length
    · rw [if_pos hc] at hqd'
      unfold complete_quiz at hqd'
      rw [dictGet_set_self] at hqd'
      by_cases hu : db.userExists = true
      · simp only [hu, if_true] at hqd'
        rw [dictGet_del_self] at hqd'
        exact Option.noConfusion hqd'
      · simp only [hu, Bool.false_eq_true, if_false] at hqd'
        rw [dictGet_set_self] at hqd'
        injection hqd' with h
        rw [← h]
    · rw [if_neg hc] at hqd'
      rw [dictGet_set_self] at hqd'
      injection hqd' with h
      rw [← h]
  · cases hqd : dictGet store u with
    | none =>
      unfold skip_question
      rw [hqd]
      exact hInv
    | some qd =>
      rw [skip_question_some db hqd]
      split
      · exact hInv
      · dsimp only
        split
        · exact sessionInvariant_complete db _ u
            (sessionInvariant_dictSet hInv (by dsimp only; omega))
        · exact sessionInvariant_dictSet hInv (by dsimp only; omega)
  · intro qd hqd hlt qd' hqd'
    rw [skip_question_some db hqd, if_neg (by omega)] at hqd'
    dsimp only at hqd'
    by_cases hc : qd.current_question + 1 ≥ qd.questions.length
    · rw [if_pos hc] at hqd'
      unfold complete_quiz at hqd'
      rw [dictGet_set_self] at hqd'
      by_cases hu : db.userExists = true
      · simp only [hu, if_true] at hqd'
        rw [dictGet_del_self] at hqd'
        exact Option.noConfusion hqd'
      · simp only [hu, Bool.false_eq_true, if_false] at hqd'
        rw [dictGet_set_self] at hqd'
        injection hqd' with h
        rw [← h]
    · rw [if_neg hc] at hqd'
      rw [dictGet_set_self] at hqd'
      injection hqd' with h
      rw [← h]
  · exact sessionInvariant_complete db store u hInv

/-- C9 witness: the invariant holds after starting, submitting and
skipping on the concrete two-question store. -/
theorem C9_index_invariant_witness :
    sessionInvariant (start_quiz storeTwo 1 5 [qSingle] [qSingle]).2
    ∧ sessionInvariant (submit_answer dbTest storeTwo 1 1 (.int 2)).2
    ∧ sessionInvariant (skip_question dbTest storeTwo 1).2 :=
  ⟨(C9_index_invariant dbTest storeTwo 1 5 1 (.int 2) [qSingle] [qSingle]
      (by decide)).1,
    (C9_index_invariant dbTest storeTwo 1 5 1 (.int 2) [qSingle] [qSingle]
      (by decide)).2.2.1,
    (C9_index_invariant dbTest storeTwo 1 5 1 (.int 2) [qSingle] [qSingle]
      (by decide)).2.2.2.2.1⟩

/-- C10: on a multiple-type current question with a duplicate-free
selection, one toggle of option i flips exactly i's membership in the
recorded selection, and two successive toggles of i restore the selected
set. -/
theorem C10_toggle_involution (db : Db) (store : Store) (u q i : Nat)
    (qd : QuizData) (cur : Question) (l : List PyScalar)
    (hqd : dictGet store u = some qd)
    (hcur : get_current_question store u = some cur)
    (hid : cur.id = q) (htype : cur.question_type = "multiple")
    (hl : (dictGet qd.answers (toString q)).getD (.list []) = .list l)
    (hnd : l.Nodup) :
    (∀ j : Int, is_option_selected (handle_quiz_answer db store u q i).2 u q j
        = true
      ↔ (if j = (i : Int) then PyScalar.int i ∉ l else PyScalar.int j ∈ l))
    ∧ (∀ j : Int,
        is_option_selected
          (handle_quiz_answer db (handle_quiz_answer db store u q i).2 u q i).2
          u q j
        = is_option_selected store u q j) := by
  have hstep : ∀ (s : Store) (qdX : QuizData) (lX : List PyScalar),
      dictGet s u = some qdX → get_current_question s u = some cur →
      (dictGet qdX.answers (toString q)).getD (.list []) = .list lX →
      handle_quiz_answer db s u q i =
        (none, dictSet s u
          { qdX with
            answers := dictSet qdX.answers (toString q)
                (.list (toggleList lX i)) }) := by
    intro s qdX lX hs hc hlX
    unfold handle_quiz_answer
    rw [hs, hc]
    simp [hid, htype, hlX, pyToggle]
  have h1 := hstep store qd l hqd hcur hl
  set qd1 : QuizData :=
    { qd with
      answers := dictSet qd.answers (toString q) (.list (toggleList l i)) }
    with hqd1def
  have hqd1 : dictGet (dictSet store u qd1) u = some qd1 :=
    dictGet_set_self _ _ _
  have hl1 : (dictGet qd1.answers (toString q)).getD (.list [])
      = .list (toggleList l i) := by
    rw [hqd1def]
    dsimp only
    rw [dictGet_set_self]
    rfl
  have hcur1 : get_current_question (dictSet store u qd1) u = some cur := by
    rw [get_current_question_some hqd1]
    rw [get_current_question_some hqd] at hcur
    exact hcur
  have h2 := hstep (dictSet store u qd1) qd1 (toggleList l i) hqd1 hcur1 hl1
  constructor
  · intro j
    rw [h1]
    rw [is_option_selected_eq hqd1 hl1 j]
    simp only [decide_eq_true_eq]
    exact toggleList_mem hnd j
  · intro j
    rw [h1, h2]
    have hqd2 : dictGet (dictSet (dictSet store u qd1) u
        { qd1 with
          answers := dictSet qd1.answers (toString q)
              (.list (toggleList (toggleList l i) i)) }) u
        = some { qd1 with
            answers := dictSet qd1.answers (toString q)
                (.list (toggleList (toggleList l i) i)) } :=
      dictGet_set_self _ _ _
    have hl2 : (dictGet (dictSet qd1.answers (toString q)
        (.list (toggleList (toggleList l i) i))) (toString q)).getD (.list [])
        = .list (toggleList (toggleList l i) i) := by
      rw [dictGet_set_self]
      rfl
    rw [is_option_selected_eq hqd2 hl2 j, is_option_selected_eq hqd hl j]
    exact decide_eq_decide.mpr (toggleList_toggleList_mem hnd j)

/-- C10 witness: with {0} selected on the multiple-choice question,
toggling option 0 deselects it and toggling it again restores the
original selection state. -/
theorem C10_toggle_involution_witness :
    is_option_selected storeMulti 1 2 0 = true
    ∧ is_option_selected (handle_quiz_answer dbTest storeMulti 1 2 0).2 1 2 0
        = false
    ∧ is_option_selected
        (handle_quiz_answer dbTest
          (handle_quiz_answer dbTest storeMulti 1 2 0).2 1 2 0).2 1 2 0
      = is_option_selected storeMulti 1 2 0 :=
  ⟨by decide, by decide,
    (C10_toggle_involution dbTest storeMulti 1 2 0 quizMulti qMulti [.int 0]
      (by decide) (by decide) (by decide) (by decide) (by decide)
      (by decide)).2 0⟩

/-- C8 witness: with "Первый тест" already granted, a completion at 100%
does not grant "Первый тест" again. -/
theorem C8_achievement_at_most_once_witness :
    "Первый тест"
      ∉ (check_achievements
          { userExists := true, existingAchNames := ["Первый тест"],
            resultsCount := 0 } 100).map (fun a => a.name) :=
  (C8_achievement_at_most_once
    { userExists := true, existingAchNames := ["Первый тест"], resultsCount := 0 }
    100 "Первый тест" (by decide)).1

end HBot

